import Mathlib

/-!
# Verification of the fastify-gql federation gateway core

Shallow embedding of the gateway runtime of the `fastify-gql` repository:

* `lib/gateway/make-resolver.js` — the selection rewriter
  (`removeNonServiceTypeFields` with schema-aware descent), variable
  collection (`collectArgumentNames`, `collectArgumentsWithVariableValues`),
  fragment collection (`collectFragmentsToInclude`) and the variable payload
  assembly of `makeResolver`;
* `lib/gateway.js` (shipped here as `src/unnamed/part_000`) — the transport
  promise (`serviceConfig.request`), bootstrap (`createTypeMap`,
  `buildServiceMap`, `buildGateway`), the ownership index
  (`typeToServiceMap`), the dispatcher (`defineResolvers`) and the legacy
  resolver pipeline (`makeResolveQuery`, `makeFieldResolver`,
  `makeReferenceResolver`).

Conventions of the embedding:

* JavaScript values flowing through the data plane are modelled by the
  inductive `Js` below; `undefined` is an explicit value, and property access
  on a missing key yields `Js.undefinedV` (the few places where JS would *throw*
  on a nullish receiver are modelled with `Except`, see `Js.getE`).
* GraphQL AST selections are modelled by `Selection` (fields and fragment
  spreads; inline fragments never reach the rewriter in the gateway: the
  source's `selection.name.value` access would throw on one, so they are not
  part of the data model).
* The service's owned-field table `service.typeMap[type].has(field)` is
  modelled as a total function `tm : String → String → Bool`; the schema's
  `getFieldType (schema, type, field)` (return-type lookup, source
  `make-resolver.js` lines 9-11) as a total function
  `sch : String → String → String`.  Both JS lookups throw on a missing key;
  the gateway only consults them for validated queries, and none of the
  claims concerns that failure mode.
-/

namespace FastifyGQL

/-- Model of a JavaScript (JSON-ish) runtime value.  `undefinedV` is JavaScript's
`undefined`, which property access on a missing key yields. -/
inductive Js where
  | undefinedV : Js
  | null : Js
  | bool (b : Bool) : Js
  | num (n : Int) : Js
  | str (s : String) : Js
  | arr (xs : List Js) : Js
  | obj (fs : List (String × Js)) : Js
deriving Repr

/-- JavaScript property access `v[k]`: on an object, the value at the first
matching key (later duplicate keys cannot arise from our builders), otherwise
`undefined`.  (On `null`/`undefined` receivers JS throws instead; the
throwing variant is `Js.getE`.) -/
def Js.get : Js → String → Js
  | .obj fs, k =>
    match fs.find? (fun kv => kv.1 == k) with
    | some kv => kv.2
    | none => .undefinedV
  | _, _ => .undefinedV

/-- JavaScript array index `v[i]`: element of an array, `undefined` otherwise
or out of bounds. -/
def Js.index : Js → Nat → Js
  | .arr xs, i => (xs.getD i .undefinedV)
  | _, _ => .undefinedV

/-- A GraphQL argument value as far as the gateway inspects it: either a
variable reference (`kind === Kind.VARIABLE`) or anything else. -/
inductive ArgValue where
  | variable (name : String) : ArgValue
  | other : ArgValue
deriving Repr, DecidableEq

/-- A GraphQL field argument node: `{name: {value}, value}`. -/
structure Argument where
  name : String
  value : ArgValue
deriving Repr, DecidableEq

/-- A GraphQL selection node as the gateway sees it: a field (with optional
nested selection set — `selectionSet` is absent on leaf fields) or a named
fragment spread (which never carries a selection set of its own). -/
inductive Selection where
  | field (name : String) (args : List Argument) (selectionSet : Option (List Selection)) : Selection
  | fragmentSpread (name : String) : Selection
deriving Repr

/-- The synthetic `__typename` field appended by the rewriter
(`make-resolver.js` lines 28-36 and the same literal in the legacy
`gateway.js`). -/
def typenameSelection : Selection :=
  Selection.field "__typename" [] none

/-- The filter predicate of `removeNonServiceTypeFields`
(`make-resolver.js` line 15):
`service.typeMap[type].has(selection.name.value) || selection.kind === Kind.FRAGMENT_SPREAD`.
For a fragment spread `selection.name.value` is the fragment's name. -/
def keepSelection (tm : String → String → Bool) (ty : String) : Selection → Bool
  | .field n _ _ => tm ty n
  | .fragmentSpread n => tm ty n || true

mutual

/-- The map step of `removeNonServiceTypeFields` (`make-resolver.js`
lines 15-27): a retained selection that has a selection set is rebuilt with
its nested selections pruned against the field's declared named return type
`getFieldType(schema, type, selection.name.value)`; any other retained
selection is returned unchanged. -/
def pruneSelection (sch : String → String → String) (tm : String → String → Bool)
    (ty : String) : Selection → Selection
  | .field n a (some ss) => .field n a (some (removeNonServiceTypeFields sch tm (sch ty n) ss))
  | .field n a none => .field n a none
  | .fragmentSpread n => .fragmentSpread n
termination_by s => (sizeOf s, 0)
decreasing_by all_goals (simp_wf <;> omega)

/-- Fusion of the source's `.filter(...).map(...)` pipeline over the input
selections (extensionally the same list; see
`pruneFiltered_eq_filter_map`). -/
def pruneFiltered (sch : String → String → String) (tm : String → String → Bool)
    (ty : String) : List Selection → List Selection
  | [] => []
  | s :: rest =>
    if keepSelection tm ty s then
      pruneSelection sch tm ty s :: pruneFiltered sch tm ty rest
    else
      pruneFiltered sch tm ty rest
termination_by sels => (sizeOf sels, 1)
decreasing_by all_goals (simp_wf <;> omega)

/-- Embedding of `removeNonServiceTypeFields(selections, service, type, schema)` of
`lib/gateway/make-resolver.js` (lines 13-38): keep the selections the target
service owns on `type` (or fragment spreads), prune their nested selection
sets recursively, and append the synthetic `__typename` field. -/
def removeNonServiceTypeFields (sch : String → String → String)
    (tm : String → String → Bool) (ty : String) (sels : List Selection) : List Selection :=
  pruneFiltered sch tm ty sels ++ [typenameSelection]
termination_by (sizeOf sels, 2)
decreasing_by all_goals (simp_wf <;> omega)

end

/-- The fused filter-and-map of the embedding coincides with the source's
literal `.filter(...).map(...)` pipeline. -/
theorem pruneFiltered_eq_filter_map (sch : String → String → String)
    (tm : String → String → Bool) (ty : String) (sels : List Selection) :
    pruneFiltered sch tm ty sels =
      (sels.filter (keepSelection tm ty)).map (pruneSelection sch tm ty) := by
  induction sels with
  | nil => simp [pruneFiltered]
  | cons s rest ih =>
    by_cases h : keepSelection tm ty s
    · simp [pruneFiltered, List.filter_cons, h, ih]
    · simp [pruneFiltered, List.filter_cons, h, ih]

/-! ## Spec-side selection rewriter

A second rewriter written from the words of the specification (section 4.4
and claim C2): "returns exactly those input selections whose field name is in
the target service's owned-field set for the current type or which are
fragment spreads, each with its nested selection set recursively pruned
(using the field's declared return type as the new type context), and appends
one synthetic `__typename` field as the last selection at every nesting
level".  It is compared against the source embedding above. -/

/-- Spec words: retain a selection whose field name is in the owned-field set
for the current type, or any fragment spread. -/
def specKeep (tm : String → String → Bool) (ty : String) : Selection → Bool
  | .field n _ _ => tm ty n
  | .fragmentSpread _ => true

/-- Helper for the termination of `specRewrite`: filtering does not grow a
list's size. -/
theorem sizeOf_filter_le (p : Selection → Bool) (l : List Selection) :
    sizeOf (l.filter p) ≤ sizeOf l := by
  induction l with
  | nil => simp
  | cons s rest ih =>
    by_cases h : p s
    · simp only [List.filter_cons, h, if_true]
      simp only [List.cons.sizeOf_spec]
      omega
    · simp only [List.filter_cons, h, if_false, Bool.false_eq_true]
      simp only [List.cons.sizeOf_spec]
      omega

mutual

/-- Spec words: a retained selection's nested selection set is pruned
recursively against the field's declared return type. -/
def specPruneSelection (sch : String → String → String) (tm : String → String → Bool)
    (ty : String) : Selection → Selection
  | .field n a (some ss) => .field n a (some (specRewrite sch tm (sch ty n) ss))
  | .field n a none => .field n a none
  | .fragmentSpread n => .fragmentSpread n
termination_by s => (sizeOf s, 0)
decreasing_by all_goals (simp_wf; omega)

/-- Recursor for mapping the spec-side pruning over the retained
selections. -/
def specMapKept (sch : String → String → String) (tm : String → String → Bool)
    (ty : String) : List Selection → List Selection
  | [] => []
  | s :: rest => specPruneSelection sch tm ty s :: specMapKept sch tm ty rest
termination_by sels => (sizeOf sels, 1)
decreasing_by all_goals (simp_wf; omega)

/-- The selection rewriter as the specification words it: filter to the
retained selections, prune each recursively, append `__typename` last. -/
def specRewrite (sch : String → String → String) (tm : String → String → Bool)
    (ty : String) (sels : List Selection) : List Selection :=
  specMapKept sch tm ty (sels.filter (specKeep tm ty)) ++ [typenameSelection]
termination_by (sizeOf sels, 2)
decreasing_by
  have := sizeOf_filter_le (specKeep tm ty) sels
  simp_wf
  omega

end

/-- The retain condition of the source (`typeMap[type].has(name) || kind ===
FRAGMENT_SPREAD`) agrees with the spec's wording. -/
theorem keepSelection_eq_specKeep (tm : String → String → Bool) (ty : String)
    (s : Selection) : keepSelection tm ty s = specKeep tm ty s := by
  cases s <;> simp [keepSelection, specKeep]

/-- Every recursion level of the source rewriter agrees with the spec-side
rewriter; proven by strong induction on the size of the input. -/
theorem prune_eq_spec_aux (sch : String → String → String)
    (tm : String → String → Bool) : ∀ n : Nat,
    (∀ ty (s : Selection), sizeOf s ≤ n →
      pruneSelection sch tm ty s = specPruneSelection sch tm ty s)
    ∧ (∀ ty (sels : List Selection), sizeOf sels ≤ n →
      removeNonServiceTypeFields sch tm ty sels = specRewrite sch tm ty sels) := by
  intro n
  induction n using Nat.strong_induction_on with
  | _ n ih =>
    constructor
    · intro ty s hs
      match s with
      | .fragmentSpread m => simp [pruneSelection, specPruneSelection]
      | .field m a none => simp [pruneSelection, specPruneSelection]
      | .field m a (some ss) =>
        have hlt : sizeOf ss < n := by
          simp only [Selection.field.sizeOf_spec, Option.some.sizeOf_spec] at hs
          omega
        have hrec := (ih (sizeOf ss) hlt).2 (sch ty m) ss le_rfl
        simp [pruneSelection, specPruneSelection, hrec]
    · intro ty sels hsels
      have hlist : pruneFiltered sch tm ty sels =
          specMapKept sch tm ty (sels.filter (specKeep tm ty)) := by
        induction sels with
        | nil => simp [pruneFiltered, specMapKept]
        | cons s rest ihrest =>
          have hs : sizeOf s < n := by
            simp only [List.cons.sizeOf_spec] at hsels
            omega
          have hrest : sizeOf rest ≤ n := by
            simp only [List.cons.sizeOf_spec] at hsels
            omega
          have hhead := (ih (sizeOf s) hs).1 ty s le_rfl
          by_cases hk : specKeep tm ty s = true
          · simp [pruneFiltered, keepSelection_eq_specKeep, hk, List.filter_cons,
              specMapKept, hhead, ihrest hrest]
          · simp [pruneFiltered, keepSelection_eq_specKeep, hk, List.filter_cons,
              ihrest hrest]
      simp [removeNonServiceTypeFields, specRewrite, hlist]

/-- Claim C2: for every selection list, target service and type context, the
selection rewriter `removeNonServiceTypeFields` returns exactly the input
selections whose field name is in the target service's owned-field set for
the current type or which are fragment spreads, each with its nested
selection set recursively pruned, and appends one synthetic `__typename`
field as the last selection at every nesting level — i.e. it coincides with
the rewriter built verbatim from the spec's words, whose result moreover
always ends in the synthetic `__typename` selection. -/
theorem removeNonServiceTypeFields_matches_spec (sch : String → String → String)
    (tm : String → String → Bool) (ty : String) (sels : List Selection) :
    removeNonServiceTypeFields sch tm ty sels = specRewrite sch tm ty sels
    ∧ (removeNonServiceTypeFields sch tm ty sels).getLast? = some typenameSelection := by
  refine ⟨(prune_eq_spec_aux sch tm (sizeOf sels)).2 ty sels le_rfl, ?_⟩
  simp [removeNonServiceTypeFields]

/-- A two-type demo ownership table: the gateway's service owns `Query.top`
and `User.name`. -/
def demoTm : String → String → Bool :=
  fun ty f => (ty == "Query" && f == "top") || (ty == "User" && f == "name")

/-- A demo schema return-type table: `Query.top : User`. -/
def demoSch : String → String → String :=
  fun ty f => if ty == "Query" && f == "top" then "User" else "Other"

/-- Claim C6: when the rewriter retains a field that carries a nested selection
set, the nested selections are pruned in the type context of that field's
declared named return type (`getFieldType (schema, type, name)` = `sch ty n`),
not in the parent's type context `ty`. -/
theorem nested_pruning_uses_declared_return_type (sch : String → String → String)
    (tm : String → String → Bool) (ty n : String) (a : List Argument)
    (ss rest : List Selection) (hkeep : tm ty n = true) :
    removeNonServiceTypeFields sch tm ty (.field n a (some ss) :: rest) =
      .field n a (some (removeNonServiceTypeFields sch tm (sch ty n) ss))
        :: removeNonServiceTypeFields sch tm ty rest := by
  simp [removeNonServiceTypeFields, pruneFiltered, keepSelection, hkeep, pruneSelection]

/-- Witness for C6 at a concrete input: pruning `{ top { name } }` for the
demo service descends into `top`'s selection set with type context `User`
(the declared return type of `Query.top`), where `name` is owned and kept. -/
theorem nested_pruning_uses_declared_return_type_witness :
    removeNonServiceTypeFields demoSch demoTm "Query"
      [Selection.field "top" [] (some [Selection.field "name" [] none])] =
      [Selection.field "top" []
        (some [Selection.field "name" [] none, typenameSelection]),
       typenameSelection] := by
  have h := nested_pruning_uses_declared_return_type demoSch demoTm "Query" "top" []
    [Selection.field "name" [] none] [] (by decide)
  rw [h]
  simp [removeNonServiceTypeFields, pruneFiltered, pruneSelection, keepSelection,
    demoSch, demoTm, typenameSelection]

/-! ## Legacy selection rewriter (`src/unnamed/part_000`, lines 199-224)

The earlier generation of the gateway (`lib/gateway.js`, shipped as
`src/unnamed/part_000`) carries its own `removeNonServiceTypeFields`: the
filter keeps a selection exactly when `service.typeMap[type].has(name)` (no
fragment-spread exemption), and the recursion passes the *same* `type` down
into nested selection sets.  It is embedded separately because the legacy
resolver pipeline of claim C5 uses it. -/

mutual

/-- Map step of the legacy rewriter: nested selections are pruned with the
parent's type context `ty` carried through unchanged. -/
def pruneSelectionLegacy (tm : String → String → Bool) (ty : String) :
    Selection → Selection
  | .field n a (some ss) => .field n a (some (removeNonServiceTypeFieldsLegacy tm ty ss))
  | .field n a none => .field n a none
  | .fragmentSpread n => .fragmentSpread n
termination_by s => (sizeOf s, 0)
decreasing_by all_goals (simp_wf; omega)

/-- Fused filter-and-map of the legacy rewriter (filter condition:
`service.typeMap[type].has(selection.name.value)` only). -/
def pruneFilteredLegacy (tm : String → String → Bool) (ty : String) :
    List Selection → List Selection
  | [] => []
  | s :: rest =>
    if (match s with
        | .field n _ _ => tm ty n
        | .fragmentSpread n => tm ty n) then
      pruneSelectionLegacy tm ty s :: pruneFilteredLegacy tm ty rest
    else
      pruneFilteredLegacy tm ty rest
termination_by sels => (sizeOf sels, 1)
decreasing_by all_goals (simp_wf; omega)

/-- Embedding of `removeNonServiceTypeFields(selections, service, type)` of
`src/unnamed/part_000` (lines 199-224). -/
def removeNonServiceTypeFieldsLegacy (tm : String → String → Bool) (ty : String)
    (sels : List Selection) : List Selection :=
  pruneFilteredLegacy tm ty sels ++ [typenameSelection]
termination_by (sizeOf sels, 2)
decreasing_by all_goals (simp_wf; omega)

end

/-! ## Operation synthesis and the legacy resolver pipeline
(`src/unnamed/part_000`, lines 226-418)

The three operation builders construct fixed AST skeletons; the embedding
records the parts that vary.  The fixed parts (operation keyword `query`,
operation names, the `$representations: [_Any!]!` variable declaration and
the `_entities(representations: $representations) { __typename ... }`
wrapper) are invariant in the source and noted here. -/

/-- Embedding of `createQueryOperation(fieldName, selections)` (part_000 lines 226-255):
a `query` operation named `Query_<fieldName>` whose single root selection is
`<fieldName>` wrapping `selections`. -/
structure QueryOperationDoc where
  operationName : String
  fieldName : String
  selections : List Selection
deriving Repr

/-- Constructor mirroring part_000's `createQueryOperation`. -/
def createQueryOperation (fieldName : String) (selections : List Selection) :
    QueryOperationDoc :=
  ⟨"Query_" ++ fieldName, fieldName, selections⟩

/-- Embedding of `createEntityReferenceResolverOperation(inlineFragmentOnType, selections)`
(part_000 lines 257-353): the fixed `query EntitiesQuery($representations:
[_Any!]!) { _entities(representations: $representations) { __typename
... on <onType> { <fragmentSelections> } } }` skeleton; only the inline
fragment's type condition and its selections vary. -/
structure EntitiesOperationDoc where
  onType : String
  fragmentSelections : List Selection
deriving Repr

/-- Constructor mirroring part_000's `createEntityReferenceResolverOperation`. -/
def createEntityReferenceResolverOperation (onType : String)
    (selections : List Selection) : EntitiesOperationDoc :=
  ⟨onType, selections⟩

/-- Embedding of `createFieldResolverOperation(fragmentType, fieldName, selections)`
(part_000 lines 355-368): an entities operation whose inline fragment holds
exactly the one delegated field wrapping the pruned selections.  (The JS
field literal carries no `arguments` key; `[]` is its printed equivalent.) -/
def createFieldResolverOperation (fragmentType fieldName : String)
    (selections : List Selection) : EntitiesOperationDoc :=
  createEntityReferenceResolverOperation fragmentType
    [Selection.field fieldName [] (some selections)]

/-- A synthesized operation document sent to a service, as built by the
legacy resolvers. -/
inductive OperationDoc where
  | query (q : QueryOperationDoc)
  | entities (e : EntitiesOperationDoc)
deriving Repr

/-- The slice of GraphQL's `info` argument the legacy resolvers consume:
`fieldName`, `getNamedType(returnType).name`, and
`fieldNodes[0].selectionSet.selections`.  (In `makeFieldResolver` and
`makeReferenceResolver` the source passes the type *object* where
`makeResolveQuery` passes `type.name`; JS coerces the object to its name when
it is used as a property key, so both are the type's name here.) -/
structure ResolveInfo where
  fieldName : String
  returnTypeName : String
  selections : List Selection

/-- A service's request/response behaviour at the AST level: the settled
(per C10, necessarily 200) response value for a synthesized operation and a
variables payload, standing for `sendServiceRequest` (part_000 lines
189-197).  `print` and HTTP serialization are the graphql library's and the
transport's concern and are absorbed into this function. -/
def Responder : Type := OperationDoc → Js → Js

/-- Embedding of `makeResolveQuery(service)` (part_000 lines 370-382): prune the request's
selections against the service for the named return type, send a
`Query_<fieldName>` operation with no variables, and resolve with
`response.json.data[fieldName]`.  (`JSON.parse(JSON.stringify(...))` is a
deep copy: the identity on pure values.) -/
def makeResolveQueryRun (tm : String → String → Bool) (respond : Responder)
    (info : ResolveInfo) : Js :=
  let selections := removeNonServiceTypeFieldsLegacy tm info.returnTypeName info.selections
  let operation := createQueryOperation info.fieldName selections
  (((respond (.query operation) (Js.obj [])).get "json").get "data").get info.fieldName

/-- Embedding of `makeFieldResolver(service, typeForFragment)` (part_000 lines 384-400):
send a field-resolver entities operation with `representations: [parent]` and
resolve with `response.json.data._entities[0][fieldName]`. -/
def makeFieldResolverRun (tm : String → String → Bool) (typeForFragment : String)
    (respond : Responder) (info : ResolveInfo) (parent : Js) : Js :=
  let selections := removeNonServiceTypeFieldsLegacy tm info.returnTypeName info.selections
  let operation := createFieldResolverOperation typeForFragment info.fieldName selections
  (((((respond (.entities operation)
      (Js.obj [("representations", Js.arr [parent])])).get "json").get "data").get
        "_entities").index 0).get info.fieldName

/-- Embedding of `makeReferenceResolver(service)` (part_000 lines 402-418): send an
entity-reference entities operation with `representations:
[parent[fieldName]]` and resolve with `response.json.data._entities[0]`. -/
def makeReferenceResolverRun (tm : String → String → Bool) (respond : Responder)
    (info : ResolveInfo) (parent : Js) : Js :=
  let selections := removeNonServiceTypeFieldsLegacy tm info.returnTypeName info.selections
  let operation := createEntityReferenceResolverOperation info.returnTypeName selections
  ((((respond (.entities operation)
      (Js.obj [("representations", Js.arr [parent.get info.fieldName])])).get
        "json").get "data").get "_entities").index 0

/-- Claim C5: whatever value `r` the upstream service's settled (200) response
is for the operation a resolver synthesizes, a root-delegated resolver
resolves its field with `r.json.data[fieldName]`, an entity-reference
resolver with `r.json.data._entities[0]`, and a field-resolver with
`r.json.data._entities[0][fieldName]`. -/
theorem resolvers_extract_claimed_projection (tm : String → String → Bool)
    (respond : Responder) (info : ResolveInfo) (parent : Js) (rq re rf : Js)
    (hq : respond
      (.query (createQueryOperation info.fieldName
        (removeNonServiceTypeFieldsLegacy tm info.returnTypeName info.selections)))
      (Js.obj []) = rq)
    (he : respond
      (.entities (createEntityReferenceResolverOperation info.returnTypeName
        (removeNonServiceTypeFieldsLegacy tm info.returnTypeName info.selections)))
      (Js.obj [("representations", Js.arr [parent.get info.fieldName])]) = re)
    (hf : respond
      (.entities (createFieldResolverOperation "Parent" info.fieldName
        (removeNonServiceTypeFieldsLegacy tm info.returnTypeName info.selections)))
      (Js.obj [("representations", Js.arr [parent])]) = rf) :
    makeResolveQueryRun tm respond info = ((rq.get "json").get "data").get info.fieldName
    ∧ makeReferenceResolverRun tm respond info parent =
        (((re.get "json").get "data").get "_entities").index 0
    ∧ makeFieldResolverRun tm "Parent" respond info parent =
        ((((rf.get "json").get "data").get "_entities").index 0).get info.fieldName := by
  subst hq he hf
  exact ⟨rfl, rfl, rfl⟩

/-- A demo 200 response body `{json: {data: {user: {...}, _entities:
[{name: "n"}]}}}` used by the C5 witness. -/
def demoResponse : Js :=
  Js.obj [("statusCode", Js.num 200),
    ("json", Js.obj [("data", Js.obj [
      ("user", Js.obj [("id", Js.str "7")]),
      ("_entities", Js.arr [Js.obj [("name", Js.str "n"), ("user", Js.str "u")]])])])]

/-- A demo responder that answers `demoResponse` to every operation. -/
def demoResponder : Responder := fun _ _ => demoResponse

/-- Witness for C5 at concrete inputs: against `demoResponder`, the
root-delegated resolver for field `user` yields `data.user`, the
entity-reference resolver yields `data._entities[0]`, and the field-resolver
yields `data._entities[0].user`. -/
theorem resolvers_extract_claimed_projection_witness :
    makeResolveQueryRun demoTm demoResponder ⟨"user", "User", []⟩ =
      Js.obj [("id", Js.str "7")]
    ∧ makeReferenceResolverRun demoTm demoResponder ⟨"user", "User", []⟩ (Js.obj []) =
      Js.obj [("name", Js.str "n"), ("user", Js.str "u")]
    ∧ makeFieldResolverRun demoTm "Parent" demoResponder ⟨"user", "User", []⟩ (Js.obj []) =
      Js.str "u" := by
  have h := resolvers_extract_claimed_projection demoTm demoResponder
    ⟨"user", "User", []⟩ (Js.obj []) demoResponse demoResponse demoResponse
    rfl rfl rfl
  refine ⟨h.1.trans ?_, h.2.1.trans ?_, h.2.2.trans ?_⟩ <;>
    simp [demoResponse, Js.get, Js.index]

/-! ## JavaScript object maps

Assoc-list model of a plain JS object used as a map: assignment overwrites in
place, lookup takes the first (unique) matching key, a missing key reads as
`undefined` (`none` here). -/

/-- JS property assignment `m[k] = v`. -/
def jsSet {α : Type} : List (String × α) → String → α → List (String × α)
  | [], k, v => [(k, v)]
  | (k', v') :: rest, k, v =>
    if k' = k then (k, v) :: rest else (k', v') :: jsSet rest k v

/-- JS property read `m[k]`, `none` meaning `undefined`. -/
def jsLookup {α : Type} : List (String × α) → String → Option α
  | [], _ => none
  | (k', v') :: rest, k => if k' = k then some v' else jsLookup rest k

theorem jsLookup_jsSet {α : Type} (m : List (String × α)) (k k' : String) (v : α) :
    jsLookup (jsSet m k v) k' = if k' = k then some v else jsLookup m k' := by
  induction m with
  | nil =>
    by_cases h : k = k'
    · subst h
      simp [jsSet, jsLookup]
    · simp [jsSet, jsLookup, h, Ne.symm h]
  | cons p rest ih =>
    obtain ⟨pk, pv⟩ := p
    by_cases h1 : pk = k
    · subst h1
      by_cases h2 : pk = k'
      · subst h2
        simp [jsSet, jsLookup]
      · simp [jsSet, jsLookup, h2, Ne.symm h2]
    · by_cases h2 : pk = k'
      · subst h2
        have h3 : ¬ pk = k := h1
        simp [jsSet, jsLookup, h3, Ne.symm h3]
      · simp [jsSet, jsLookup, h1, h2, ih]

/-! ## Variable collection and the request payload of `makeResolver`
(`lib/gateway/make-resolver.js`, lines 192-341) -/

/-- Embedding of `collectArgumentNames(fieldNode)` (make-resolver.js lines 192-205): for
each argument whose *value* is a variable reference, push the **argument's**
name (`argument.name.value`) — not the variable's name. -/
def collectArgumentNames : Selection → List String
  | .field _ args _ =>
    args.filterMap (fun a =>
      match a.value with
      | .variable _ => some a.name
      | .other => none)
  | .fragmentSpread _ => []

/-- Embedding of `collectArgumentsWithVariableValues(selections)` (make-resolver.js lines
207-219): the argument names collected across a selection list, descending
into nested selection sets. -/
def collectArgumentsWithVariableValues : List Selection → List String
  | [] => []
  | .field n args (some ss) :: rest =>
    collectArgumentNames (.field n args (some ss))
      ++ collectArgumentsWithVariableValues ss
      ++ collectArgumentsWithVariableValues rest
  | .field n args none :: rest =>
    collectArgumentNames (.field n args none) ++ collectArgumentsWithVariableValues rest
  | .fragmentSpread _ :: rest => collectArgumentsWithVariableValues rest
termination_by sels => sizeOf sels
decreasing_by all_goals simp_wf <;> omega

/-- A variable definition of the original operation
(`definition.variable.name.value` plus its declared type). -/
structure VariableDefinition where
  name : String
  typeRepr : String
deriving Repr, DecidableEq

/-- The name set `variableNamesToDefine` of `makeResolver` (make-resolver.js
lines 290-291): the names collected from the pruned selections plus those
collected from the originating field node itself (a JS `Set`; here the
concatenation, with membership as the observable). -/
def variableNamesToDefine (selections : List Selection) (fieldNode : Selection) :
    List String :=
  collectArgumentsWithVariableValues selections ++ collectArgumentNames fieldNode

/-- Embedding of `variablesToDefine` of `makeResolver` (make-resolver.js line 292): the
original operation's variable definitions filtered down to the collected
names. -/
def variablesToDefine (originalDefs : List VariableDefinition)
    (selections : List Selection) (fieldNode : Selection) : List VariableDefinition :=
  originalDefs.filter (fun d => decide (d.name ∈ variableNamesToDefine selections fieldNode))

/-- The variable names referenced by a selection's arguments, as the
specification words it (claim C3): the names of the **variables** occurring
as argument values. -/
def specVariableNamesOfArgs (args : List Argument) : List String :=
  args.filterMap (fun a =>
    match a.value with
    | .variable v => some v
    | .other => none)

/-- Modelled from the spec (claim C3 / section 4.5): every variable name
referenced by the pruned selections, including nested argument usages. -/
def specReferencedVariableNames : List Selection → List String
  | [] => []
  | .field _ args (some ss) :: rest =>
    specVariableNamesOfArgs args ++ specReferencedVariableNames ss
      ++ specReferencedVariableNames rest
  | .field _ args none :: rest =>
    specVariableNamesOfArgs args ++ specReferencedVariableNames rest
  | .fragmentSpread _ :: rest => specReferencedVariableNames rest
termination_by sels => sizeOf sels
decreasing_by all_goals simp_wf <;> omega

/-- The originating field of the C3 failing input: `user(id: $userId)`,
an argument whose name (`id`) differs from its variable's name (`userId`). -/
def userFieldNode : Selection :=
  Selection.field "user" [⟨"id", ArgValue.variable "userId"⟩] none

/-- Claim C3: the claim fails on the code.  `collectArgumentNames` pushes
`argument.name.value` — the *argument's* name — where its own comment ("collect
all variable names that are used in selection") and the spec require the
*variable's* name.  On the originating field `user(id: $userId)` the code
collects `"id"`, so the original definition of `$userId` is filtered out and
the synthesized sub-operation's variable definitions are empty, while the
sub-operation still references the variable `userId`. -/
theorem variable_forwarding_collects_argument_names :
    collectArgumentNames userFieldNode = ["id"]
    ∧ variablesToDefine [⟨"userId", "ID!"⟩] [] userFieldNode = []
    ∧ specReferencedVariableNames [] ++ specVariableNamesOfArgs
        [⟨"id", ArgValue.variable "userId"⟩] = ["userId"] := by
  refine ⟨rfl, ?_, ?_⟩
  · simp [variablesToDefine, variableNamesToDefine, userFieldNode,
      collectArgumentsWithVariableValues, collectArgumentNames]
  · simp [specReferencedVariableNames, specVariableNamesOfArgs]

/-- The variables payload assembled by `makeResolver` (make-resolver.js lines
318-331): the original operation's variable values filtered to the collected
names, then — `if (isReference)` — `representations = [parent[fieldName]]`,
else — `if (!isQuery)` — `representations = [parent]`, and for a query
resolver nothing added. -/
def buildRequestVariables (variableValues : List (String × Js))
    (toDefine : List String) (isQuery isReference : Bool) (parent : Js)
    (fieldName : String) : List (String × Js) :=
  let base := variableValues.filter (fun kv => decide (kv.1 ∈ toDefine))
  if isReference then
    jsSet base "representations" (Js.arr [parent.get fieldName])
  else if !isQuery then
    jsSet base "representations" (Js.arr [parent])
  else
    base

/-- Helper: looking up a key that the retained-names filter excludes yields
`undefined`. -/
theorem jsLookup_filter_not_mem (vv : List (String × Js)) (toDefine : List String)
    (k : String) (h : ¬ k ∈ toDefine) :
    jsLookup (vv.filter (fun kv => decide (kv.1 ∈ toDefine))) k = none := by
  induction vv with
  | nil => simp [jsLookup]
  | cons p rest ih =>
    obtain ⟨pk, pv⟩ := p
    by_cases hp : pk ∈ toDefine
    · have hne : ¬ pk = k := fun he => h (he ▸ hp)
      simp [List.filter_cons, hp, jsLookup, hne, ih]
    · simp [List.filter_cons, hp, ih]

/-- Claim C4: the `representations` variable sent with a delegated request is a
one-element list: for an entity-reference resolver (`isReference`) the
element is the parent's keyed sub-field `parent[fieldName]`; for a
field-resolver (neither query nor reference) it is the parent value itself;
a root-delegated (query) resolver sends no `representations` (provided the
client did not itself forward a variable of that name). -/
theorem representations_payload (vv : List (String × Js)) (toDefine : List String)
    (parent : Js) (fieldName : String) :
    jsLookup (buildRequestVariables vv toDefine false true parent fieldName)
        "representations" = some (Js.arr [parent.get fieldName])
    ∧ jsLookup (buildRequestVariables vv toDefine false false parent fieldName)
        "representations" = some (Js.arr [parent])
    ∧ (¬ "representations" ∈ toDefine →
        jsLookup (buildRequestVariables vv toDefine true false parent fieldName)
          "representations" = none) := by
  refine ⟨?_, ?_, fun h => ?_⟩
  · simp [buildRequestVariables, jsLookup_jsSet]
  · simp [buildRequestVariables, jsLookup_jsSet]
  · simpa [buildRequestVariables] using jsLookup_filter_not_mem vv toDefine _ h

/-- Witness for C4 at a concrete input: with one forwarded variable `x`, the
reference resolver sends `[parent.id]`, the field resolver sends `[parent]`,
and the query resolver sends no representations. -/
theorem representations_payload_witness :
    jsLookup (buildRequestVariables [("x", Js.num 1)] ["x"] false true
        (Js.obj [("id", Js.str "7")]) "id") "representations" =
      some (Js.arr [Js.str "7"])
    ∧ jsLookup (buildRequestVariables [("x", Js.num 1)] ["x"] false false
        (Js.obj [("id", Js.str "7")]) "id") "representations" =
      some (Js.arr [Js.obj [("id", Js.str "7")]])
    ∧ jsLookup (buildRequestVariables [("x", Js.num 1)] ["x"] true false
        (Js.obj [("id", Js.str "7")]) "id") "representations" = none := by
  have h := representations_payload [("x", Js.num 1)] ["x"]
    (Js.obj [("id", Js.str "7")]) "id"
  refine ⟨h.1.trans ?_, h.2.1.trans ?_, h.2.2 (by decide)⟩ <;> simp [Js.get]

/-! ## Fragment collection (`lib/gateway/make-resolver.js`, lines 221-259)

`collectFragmentsToInclude(usedFragments, fragments, service, schema)`
creates a **fresh, call-local** `visitedFragments` set on every invocation
and recurses with `collectFragmentsToInclude(fragmentsInSelections,
fragments, service)` — the parent's visited set is not passed along (nor is
`schema`; on the fragments used below no nested field carries a selection
set, so the dropped schema argument is never consulted by the real code and
is threaded through unchanged here).  The embedding makes the unbounded
recursion depth explicit with a fuel parameter that only the recursive
`collectFragmentsToInclude` call consumes: a `none` result for *every* fuel
value is exactly a non-terminating run of the source. -/

/-- A fragment definition as the gateway consumes it:
`{name, typeCondition.name.value, selectionSet.selections}`.  The `fragments`
map of GraphQL's `info` is total on the names a validated query spreads. -/
structure FragmentDef where
  name : String
  typeCondition : String
  selections : List Selection
deriving Repr

/-- Embedding of `getFragmentNamesInSelection(selections)` (make-resolver.js lines
221-235): fragment-spread names in a selection list, descending into nested
selection sets. -/
def getFragmentNamesInSelection : List Selection → List String
  | [] => []
  | .fragmentSpread n :: rest => n :: getFragmentNamesInSelection rest
  | .field _ _ (some ss) :: rest =>
    getFragmentNamesInSelection ss ++ getFragmentNamesInSelection rest
  | .field _ _ none :: rest => getFragmentNamesInSelection rest
termination_by sels => sizeOf sels
decreasing_by all_goals simp_wf <;> omega

mutual

/-- The `for (const fragmentName of usedFragments)` loop of
`collectFragmentsToInclude`, with the call-local `visitedFragments` set
threaded as `visited`: prune the fragment's selections, emit the pruned
fragment, recurse (fresh visited set, fuel decremented) on the
not-yet-visited fragment names appearing in the pruned selections, and
continue the loop. -/
def collectFragmentsLoop (fuel : Nat) (fragments : String → FragmentDef)
    (tm : String → String → Bool) (sch : String → String → String) :
    List String → List String → Option (List FragmentDef)
  | [], _ => some []
  | fragmentName :: rest, visited =>
    let visited' := fragmentName :: visited
    let fragment := fragments fragmentName
    let selections := removeNonServiceTypeFields sch tm fragment.typeCondition
      fragment.selections
    let pruned : FragmentDef := ⟨fragment.name, fragment.typeCondition, selections⟩
    let fragmentsInSelections := (getFragmentNamesInSelection selections).filter
      (fun m => !(visited'.contains m))
    match collectFragmentsToIncludeF fuel fragmentsInSelections fragments tm sch with
    | none => none
    | some sub =>
      match collectFragmentsLoop fuel fragments tm sch rest visited' with
      | none => none
      | some tailResult => some (pruned :: (sub ++ tailResult))
termination_by used _ => (fuel, 1, used.length)


/-- Embedding of `collectFragmentsToInclude(usedFragments, fragments, service, schema)`
(make-resolver.js lines 237-259), fuelled: `none` means the fuel ran out,
i.e. the source would still be recursing after that many nested calls. -/
def collectFragmentsToIncludeF : Nat → List String → (String → FragmentDef) →
    (String → String → Bool) → (String → String → String) →
    Option (List FragmentDef)
  | 0, _, _, _, _ => none
  | fuel + 1, usedFragments, fragments, tm, sch =>
    collectFragmentsLoop fuel fragments tm sch usedFragments []
termination_by fuel _ _ _ _ => (fuel, 0, 0)

end

/-- A fragment map with a two-fragment cycle: `fragment A on T { ...B }` and
`fragment B on T { ...A }`; every other name maps to an empty fragment. -/
def cycFragments : String → FragmentDef := fun n =>
  if n = "A" then ⟨"A", "T", [Selection.fragmentSpread "B"]⟩
  else if n = "B" then ⟨"B", "T", [Selection.fragmentSpread "A"]⟩
  else ⟨n, "T", []⟩

/-- Owned-field table for the cyclic example (contents irrelevant: fragment
spreads survive the rewriter's filter unconditionally). -/
def cycTm : String → String → Bool := fun _ _ => false

/-- Return-type table for the cyclic example (never consulted: the fragments
contain no nested field selections). -/
def cycSch : String → String → String := fun _ _ => "T"

/-- Pruning fragment `A`'s selections keeps the spread of `B` and appends
`__typename`. -/
theorem prune_cyc_spread (n : String) :
    removeNonServiceTypeFields cycSch cycTm "T" [Selection.fragmentSpread n] =
      [Selection.fragmentSpread n, typenameSelection] := by
  simp [removeNonServiceTypeFields, pruneFiltered, pruneSelection, keepSelection, cycTm]

/-- The fragment names occurring in the pruned selections of a cyclic
fragment. -/
theorem names_cyc_spread (n : String) :
    getFragmentNamesInSelection [Selection.fragmentSpread n, typenameSelection] =
      [n] := by
  simp [getFragmentNamesInSelection, typenameSelection]

/-- Both directions of the cycle exhaust every fuel budget: each recursive
call starts from a fresh `visitedFragments` set, so processing `A` schedules
`B` and processing `B` schedules `A` again, forever. -/
theorem cyc_fragments_exhaust_fuel : ∀ n : Nat,
    collectFragmentsToIncludeF n ["A"] cycFragments cycTm cycSch = none
    ∧ collectFragmentsToIncludeF n ["B"] cycFragments cycTm cycSch = none := by
  intro n
  induction n with
  | zero =>
    constructor <;> simp [collectFragmentsToIncludeF]
  | succ m ih =>
    constructor
    · simp only [collectFragmentsToIncludeF, collectFragmentsLoop, cycFragments]
      simp [prune_cyc_spread, names_cyc_spread, ih.2]
    · simp only [collectFragmentsToIncludeF, collectFragmentsLoop, cycFragments]
      simp [prune_cyc_spread, names_cyc_spread, ih.1]

/-- Claim C9: the claim fails on the code.  `collectFragmentsToInclude` creates
its `visitedFragments` set afresh on every call and does not pass it into the
recursive call, so on the cyclic fragment map `A → B → A` the collection
never terminates: for every fuel bound the fuelled embedding is still
recursing (`none`).  (A genuinely self-referential fragment `C → C` *is*
stopped by the call-local set — see
`collectFragments_self_reference_terminates` — which shows the fuel model
itself is not the obstacle.) -/
theorem collectFragments_cyclic_diverges (n : Nat) :
    collectFragmentsToIncludeF n ["A"] cycFragments cycTm cycSch = none :=
  (cyc_fragments_exhaust_fuel n).1

/-- Control: on a *directly* self-referential fragment (`fragment C on T
{ ...C }`, reachable under the name `Z` below — any name other than `A`/`B`
maps to an empty fragment, so take the 1-cycle via `A` alone) the call-local
visited set does stop the recursion, and a small fuel suffices.  Here: a
fragment map where `A` spreads itself. -/
def selfFragments : String → FragmentDef := fun n =>
  if n = "A" then ⟨"A", "T", [Selection.fragmentSpread "A"]⟩
  else ⟨n, "T", []⟩

/-- With a direct self-reference the visited set filters the only candidate
out and the collection terminates with the pruned fragment — evidence that
the fuelled embedding reports `none` only for genuine divergence. -/
theorem collectFragments_self_reference_terminates :
    collectFragmentsToIncludeF 2 ["A"] selfFragments cycTm cycSch =
      some [⟨"A", "T", [Selection.fragmentSpread "A", typenameSelection]⟩] := by
  simp only [collectFragmentsToIncludeF, collectFragmentsLoop, selfFragments]
  simp [prune_cyc_spread, names_cyc_spread, collectFragmentsToIncludeF,
    collectFragmentsLoop]

/-! ## The per-service request promise (`src/unnamed/part_000`, lines
105-136)

`serviceConfig.request` wraps the pooled transport in a `new Promise`: the
callback rejects on a transport error; on a response it reads and parses the
body and resolves **only** inside `if (response.statusCode === 200)` — no
`else` branch exists, so for any other status neither `resolve` nor `reject`
is ever called.  The embedding maps each transport outcome to the promise's
settlement; body reading ("fully read", the `end` event) and `JSON.parse` are
absorbed into the already-parsed `json` carried by the outcome. -/

/-- What the underlying transport reports for one request: an error, or a
response with a status code and a (parsed) JSON body. -/
inductive TransportOutcome where
  | error (e : String)
  | response (statusCode : Nat) (json : Js)

/-- How a promise settles: rejection, resolution with a value, or never. -/
inductive Settlement where
  | rejects (e : String)
  | resolves (v : Js)
  | neverSettles

/-- The settlement behaviour of `serviceConfig.request` (part_000 lines
105-136): reject on transport error; resolve with `{statusCode, json}` after
a 200 response is fully read; otherwise never settle. -/
def requestSettlement : TransportOutcome → Settlement
  | .error e => .rejects e
  | .response sc json =>
    if sc = 200 then
      .resolves (Js.obj [("statusCode", Js.num sc), ("json", json)])
    else
      .neverSettles

/-- Claim C10: the promise returned by a service's request helper settles in
exactly two cases — it rejects when the transport reports an error, and it
resolves with the parsed body once a response with status exactly 200 is
fully read; for every non-200 response without a transport error it never
settles. -/
theorem request_promise_settlement :
    (∀ e, requestSettlement (.error e) = .rejects e)
    ∧ (∀ json, requestSettlement (.response 200 json) =
        .resolves (Js.obj [("statusCode", Js.num 200), ("json", json)]))
    ∧ (∀ sc json, sc ≠ 200 → requestSettlement (.response sc json) = .neverSettles) := by
  refine ⟨fun e => rfl, fun json => rfl, fun sc json h => ?_⟩
  simp [requestSettlement, h]

/-- Witness for C10 at concrete inputs: a 500 response never settles, a 200
response resolves, an errored request rejects. -/
theorem request_promise_settlement_witness :
    requestSettlement (.response 500 Js.null) = .neverSettles
    ∧ requestSettlement (.response 200 Js.null) =
        .resolves (Js.obj [("statusCode", Js.num 200), ("json", Js.null)])
    ∧ requestSettlement (.error "ECONNREFUSED") = .rejects "ECONNREFUSED" :=
  ⟨request_promise_settlement.2.2 500 Js.null (by decide),
   request_promise_settlement.2.1 Js.null,
   request_promise_settlement.1 "ECONNREFUSED"⟩

/-! ## Bootstrap (`src/unnamed/part_000`, lines 81-176 and 451-474)

`buildServiceMap` initializes every configured service by sending the fixed
`ServiceInfo` introspection query, extracting `response.json.data._service.sdl`,
parsing the SDL (the graphql library's `parse`, taken as a parameter) and
building the service's `typeMap`.  The real code fans the `init` calls out
through `p-map` with concurrency 8 and fails as soon as any one of them
rejects; the embedding runs them sequentially in configuration order, which
preserves the all-or-nothing outcome (for the single-failure inputs below the
surfaced error is also identical).  Service responses are modelled by the
outcome of their (per C10 necessarily 200-settled) introspection request. -/

/-- An error surfaced during bootstrap.  None of the constructors carries a
service name: the source rejects with the bare underlying error. -/
inductive BootError where
  | transport (msg : String)
  | typeError (msg : String)
  | parseError (msg : String)
deriving Repr, DecidableEq

/-- JS property access that models the throw on a nullish receiver
(`TypeError: Cannot read property ... of undefined/null`). -/
def Js.getE : Js → String → Except BootError Js
  | .undefinedV, k => .error (.typeError ("Cannot read property " ++ k ++ " of undefined"))
  | .null, k => .error (.typeError ("Cannot read property " ++ k ++ " of null"))
  | v, k => .ok (v.get k)

/-- A top-level SDL definition as `createTypeMap` classifies it:
`isTypeDefinitionNode(definition)`, `isTypeExtensionNode(definition)`, its
name and its field names. -/
structure SdlDefinition where
  isTypeDefinition : Bool
  isExtension : Bool
  name : String
  fields : List String
deriving Repr, DecidableEq

/-- Embedding of `createTypeMap(schemaDefinition)` (part_000 lines 81-95) after parsing:
record `name ↦ field-name set` for every type definition and for extensions
of `Query` only. -/
def createTypeMap (doc : List SdlDefinition) : List (String × List String) :=
  doc.foldl (fun acc d =>
    if d.isTypeDefinition || (d.isExtension && d.name == "Query") then
      jsSet acc d.name d.fields
    else acc) []

/-- The per-service state after a successful `init` (part_000 lines 138-171):
the subgraph's SDL, its `typeMap`, and `types = Object.keys(typeMap)`. -/
structure ServiceRuntime where
  schemaDefinition : String
  typeMap : List (String × List String)
  types : List String
deriving Repr, DecidableEq

/-- What a configured service's introspection request settles to (per C10 a
settled response necessarily had status 200). -/
inductive IntroOutcome where
  | netErr (msg : String)
  | ok200 (json : Js)

/-- Embedding of `response.json.data._service.sdl`: each step throws on a nullish
receiver. -/
def extractSdl (json : Js) : Except BootError Js :=
  match json.getE "data" with
  | .error e => .error e
  | .ok data =>
    match data.getE "_service" with
    | .error e => .error e
    | .ok svc => svc.getE "sdl"

/-- One service's `init` (part_000 lines 138-160): reject on transport error;
otherwise extract the SDL, parse it (`parse` is the graphql library's parser,
whose failure carries only its own syntax-error message), and build the
runtime.  A non-string `sdl` value makes `parse` throw its "Must provide
Source" error. -/
def serviceInit (parse : String → Except String (List SdlDefinition)) :
    IntroOutcome → Except BootError ServiceRuntime
  | .netErr m => .error (.transport m)
  | .ok200 json =>
    match extractSdl json with
    | .error e => .error e
    | .ok (.str sdl) =>
      match parse sdl with
      | .error m => .error (.parseError m)
      | .ok doc =>
        let tm := createTypeMap doc
        .ok ⟨sdl, tm, tm.map (fun kv => kv.1)⟩
    | .ok _ => .error (.parseError "Must provide Source. Received: undefined.")

/-- A configured service: its (unique) name and the behaviour of its
introspection endpoint. -/
structure ServiceConfig where
  name : String
  intro : IntroOutcome

/-- Embedding of `buildServiceMap(services)` (part_000 lines 97-176): initialize every
service; the first failure aborts the whole bootstrap with that error. -/
def buildServiceMap (parse : String → Except String (List SdlDefinition)) :
    List ServiceConfig → Except BootError (List (String × ServiceRuntime))
  | [] => .ok []
  | svc :: rest =>
    match serviceInit parse svc.intro with
    | .error e => .error e
    | .ok rt =>
      match buildServiceMap parse rest with
      | .error e => .error e
      | .ok restMap => .ok ((svc.name, rt) :: restMap)

/-- The ownership index built in `buildGateway` (part_000 lines 460-466):
for every service, in configuration order, assign each of its `types` to it
(later assignments silently overwriting earlier ones), then force
`typeToServiceMap.Query = null` — and only `Query`. -/
def buildTypeToServiceMap (serviceMap : List (String × ServiceRuntime)) :
    List (String × Option String) :=
  jsSet
    (serviceMap.foldl (fun acc p =>
      p.2.types.foldl (fun acc2 t => jsSet acc2 t (some p.1)) acc) [])
    "Query" none

/-- The gateway object `buildGateway` resolves with, up to the externally
composed schema (`buildFederatedSchema` is the federation module's concern;
resolver wiring over the composed schema is `classifyField` below). -/
structure Gateway where
  serviceMap : List (String × ServiceRuntime)
  typeToServiceMap : List (String × Option String)

/-- Embedding of `buildGateway(gatewayOpts)` (part_000 lines 451-474): await the service
map — any init failure rejects the whole construction — then build the
ownership index. -/
def buildGateway (parse : String → Except String (List SdlDefinition))
    (services : List ServiceConfig) : Except BootError Gateway :=
  match buildServiceMap parse services with
  | .error e => .error e
  | .ok sm => .ok ⟨sm, buildTypeToServiceMap sm⟩

/-- A well-formed introspection body whose `_service.sdl` is the string
`"good"`. -/
def goodJson : Js :=
  Js.obj [("data", Js.obj [("_service", Js.obj [("sdl", Js.str "good")])])]

/-- An introspection body whose `_service.sdl` is the unparsable string
`"bad"`. -/
def badJson : Js :=
  Js.obj [("data", Js.obj [("_service", Js.obj [("sdl", Js.str "bad")])])]

/-- A concrete stand-in for the graphql parser: accepts the SDL `"good"`,
fails on anything else with a fixed syntax-error message (as `parse` does,
naming only the offending token, never the service). -/
def demoParse : String → Except String (List SdlDefinition) := fun s =>
  if s = "good" then .ok [⟨true, false, "T", ["a"]⟩]
  else .error "Syntax Error: Unexpected Name"

/-- Claim C7, counterexample: the resulting bootstrap error does *not*
identify which service failed.  With two services `a`, `b`, letting `b`
return the unparsable SDL produces the very same error value as letting `a`
return it — the error is a function of the SDL text alone, so nothing in it
distinguishes the failing service. -/
theorem bootstrap_error_does_not_name_service :
    buildGateway demoParse
        [⟨"a", .ok200 goodJson⟩, ⟨"b", .ok200 badJson⟩] =
      .error (.parseError "Syntax Error: Unexpected Name")
    ∧ buildGateway demoParse
        [⟨"a", .ok200 badJson⟩, ⟨"b", .ok200 goodJson⟩] =
      .error (.parseError "Syntax Error: Unexpected Name") := by
  constructor <;> rfl

/-- Claim C7, amended: if introspection of any single service fails during
bootstrap, gateway construction fails as a whole — no partial gateway object
is produced — with the underlying error propagated; the error does not in
general identify which service failed (see
`bootstrap_error_does_not_name_service`). -/
theorem bootstrap_all_or_nothing (parse : String → Except String (List SdlDefinition))
    (services : List ServiceConfig)
    (h : ∃ s ∈ services, ∃ e, serviceInit parse s.intro = .error e) :
    ∃ e, buildGateway parse services = .error e := by
  suffices hsm : ∃ e, buildServiceMap parse services = .error e by
    obtain ⟨e, he⟩ := hsm
    exact ⟨e, by simp [buildGateway, he]⟩
  induction services with
  | nil =>
    obtain ⟨s, hs, _⟩ := h
    cases hs
  | cons svc rest ih =>
    match hinit : serviceInit parse svc.intro with
    | .error e => exact ⟨e, by simp [buildServiceMap, hinit]⟩
    | .ok rt =>
      obtain ⟨s, hs, e, he⟩ := h
      rcases List.mem_cons.mp hs with heq | hmem
      · subst heq
        rw [hinit] at he
        cases he
      · obtain ⟨e', he'⟩ := ih ⟨s, hmem, e, he⟩
        exact ⟨e', by simp [buildServiceMap, hinit, he']⟩

/-- Witness for C7 (amended) at a concrete input: a single service whose
introspection request suffers a transport error makes `buildGateway` fail
with that error. -/
theorem bootstrap_all_or_nothing_witness :
    ∃ e, buildGateway demoParse [⟨"a", .netErr "ECONNREFUSED"⟩] = .error e :=
  bootstrap_all_or_nothing demoParse [⟨"a", .netErr "ECONNREFUSED"⟩]
    ⟨⟨"a", .netErr "ECONNREFUSED"⟩, by simp, .transport "ECONNREFUSED", rfl⟩

/-! ## Ownership index (claim C8) -/

/-- The service that would end up owning `t`: the last service in
configuration order whose `types` contain `t`, if any. -/
def lastDeclaring (sm : List (String × ServiceRuntime)) (t : String) : Option String :=
  sm.foldl (fun r p => if t ∈ p.2.types then some p.1 else r) none

/-- Folding one service's types into the accumulator assigns exactly its
declared types. -/
theorem jsLookup_types_foldl (types : List String) (svc : String)
    (acc : List (String × Option String)) (t : String) :
    jsLookup (types.foldl (fun acc2 ty => jsSet acc2 ty (some svc)) acc) t =
      if t ∈ types then some (some svc) else jsLookup acc t := by
  induction types generalizing acc with
  | nil => simp
  | cons ty rest ih =>
    simp only [List.foldl_cons, ih, jsLookup_jsSet]
    by_cases h1 : t ∈ rest
    · simp [h1]
    · by_cases h2 : t = ty
      · simp [h1, h2]
      · simp [h1, h2]

/-- The fold computing `lastDeclaring` relates an arbitrary seed to the
`none`-seeded run. -/
theorem lastDeclaring_foldl_init (sm : List (String × ServiceRuntime)) (t : String)
    (r : Option String) :
    sm.foldl (fun r p => if t ∈ p.2.types then some p.1 else r) r =
      match lastDeclaring sm t with
      | some s => some s
      | none => r := by
  induction sm generalizing r with
  | nil => simp [lastDeclaring]
  | cons p rest ih =>
    conv_lhs => rw [List.foldl_cons, ih]
    conv_rhs => rw [lastDeclaring, List.foldl_cons, ih]
    cases hF : lastDeclaring rest t with
    | some s => simp [hF]
    | none =>
      by_cases h : t ∈ p.2.types
      · simp [hF, h]
      · simp [hF, h]

/-- The service-map fold realizes `lastDeclaring` over any accumulator. -/
theorem jsLookup_services_foldl (sm : List (String × ServiceRuntime))
    (acc : List (String × Option String)) (t : String) :
    jsLookup (sm.foldl (fun acc p =>
        p.2.types.foldl (fun acc2 ty => jsSet acc2 ty (some p.1)) acc) acc) t =
      match lastDeclaring sm t with
      | some s => some (some s)
      | none => jsLookup acc t := by
  induction sm generalizing acc with
  | nil => simp [lastDeclaring]
  | cons p rest ih =>
    simp only [List.foldl_cons]
    rw [ih, jsLookup_types_foldl]
    conv_rhs => rw [lastDeclaring, List.foldl_cons, lastDeclaring_foldl_init]
    cases hL : lastDeclaring rest t with
    | some s => simp [hL]
    | none =>
      by_cases h : t ∈ p.2.types
      · simp [hL, h]
      · simp [hL, h]

/-- Claim C8, counterexample: `Mutation` is *not* force-assigned the sentinel
`none`.  A service map whose single service declares `Mutation` leaves the
ownership index mapping `Mutation` to that service — only `Query` is forced. -/
theorem mutation_not_forced_to_none :
    jsLookup (buildTypeToServiceMap
        [("a", ⟨"sdl", [("Mutation", ["doIt"])], ["Mutation"]⟩)]) "Mutation" =
      some (some "a")
    ∧ jsLookup (buildTypeToServiceMap
        [("a", ⟨"sdl", [("Mutation", ["doIt"])], ["Mutation"]⟩)]) "Mutation" ≠
      some none := by
  constructor
  · rfl
  · intro h
    cases h

/-- Claim C8, amended: the ownership index maps every declared type to the
last service in configuration order that declares it (a later-processed
service silently overriding an earlier one), and exactly `Query` is
force-assigned the sentinel `none`; `Mutation` and `Subscription` are not
forced. -/
theorem ownership_index_spec (sm : List (String × ServiceRuntime)) (t : String) :
    jsLookup (buildTypeToServiceMap sm) t =
      if t = "Query" then some none
      else (lastDeclaring sm t).map some := by
  unfold buildTypeToServiceMap
  rw [jsLookup_jsSet]
  by_cases h : t = "Query"
  · simp [h]
  · simp only [h, if_neg, if_false]
    rw [jsLookup_services_foldl]
    cases lastDeclaring sm t <;> simp [jsLookup]

/-! ## Resolver dispatcher (`src/unnamed/part_000`, lines 420-449)

`defineResolvers(schema, typeToServiceMap, serviceMap)` walks the composed
schema's object types (skipping the introspection meta-types), and for every
field whose named return type is not a scalar compares
`typeToServiceMap[fieldType]` with `typeToServiceMap[type.name]`.  The inner
classification of one field (lines 428-445) is `classifyField` below.

Owner values are `jsLookup` results: `none` is JS `undefined` (type absent
from the index), `some none` is the sentinel `null` (forced for `Query`),
`some (some s)` is service `s`.  In the branch taken when the declaring
type's owner is a service, the source reads
`serviceMap[serviceForType].typeMap[type.name].has(fieldName)`; a missing
service or type there makes JS throw, modelled by `Except.error ()` (an
`undefined` owner reaching that branch coerces to the property key
`"undefined"` and throws the same way, no service being so named). -/

/-- The three delegating resolver kinds wired by the dispatcher. -/
inductive ResolverKind where
  | queryResolver
  | referenceResolver
  | fieldResolver
deriving Repr, DecidableEq

/-- A field of a composed object type as the dispatcher inspects it:
`field.name`, the name of `getNamedType(field.type)`, and
`isScalarType(getNamedType(field.type))`. -/
structure FieldDef where
  name : String
  returnTypeName : String
  returnTypeScalar : Bool
deriving Repr, DecidableEq

/-- Embedding of `typeToServiceMap[t]` (the type object used as a key coerces to its
name). -/
def ownerOf (tsm : List (String × Option String)) (t : String) :
    Option (Option String) :=
  jsLookup tsm t

/-- The introspection meta-types skipped by `defineResolvers`
(`isDefaultType`, part_000 lines 178-187). -/
def isDefaultType (t : String) : Bool :=
  ["__Schema", "__Type", "__Field", "__InputValue", "__EnumValue",
    "__Directive"].contains t

/-- The per-field classification of `defineResolvers` (part_000 lines
428-445): no resolver for scalar return types or when both owners coincide;
`makeResolveQuery` when the declaring type's owner is the `null` sentinel;
otherwise `makeReferenceResolver` when the declaring service's own `typeMap`
lists this field on the declaring type, else `makeFieldResolver`.
`Except.error ()` marks the paths where the source would throw. -/
def classifyField (tsm : List (String × Option String))
    (serviceMap : List (String × ServiceRuntime)) (typeName : String)
    (fd : FieldDef) : Except Unit (Option ResolverKind) :=
  if fd.returnTypeScalar then .ok none
  else
    let serviceForType := ownerOf tsm typeName
    let serviceForFieldType := ownerOf tsm fd.returnTypeName
    if serviceForFieldType = serviceForType then .ok none
    else if serviceForType = some none then .ok (some .queryResolver)
    else
      match serviceForType with
      | some (some s) =>
        match jsLookup serviceMap s with
        | none => .error ()
        | some rt =>
          match jsLookup rt.typeMap typeName with
          | none => .error ()
          | some fset =>
            if fd.name ∈ fset then .ok (some .referenceResolver)
            else .ok (some .fieldResolver)
      | _ => .error ()

/-- A schema object type as `defineResolvers` iterates it. -/
structure SchemaType where
  name : String
  isObject : Bool
  fields : List FieldDef

/-- Embedding of `defineResolvers(schema, typeToServiceMap, serviceMap)` (part_000 lines
420-449): the classification attached to each field of each object type that
is not an introspection meta-type. -/
def defineResolvers (schema : List SchemaType)
    (tsm : List (String × Option String))
    (serviceMap : List (String × ServiceRuntime)) :
    List ((String × String) × Except Unit (Option ResolverKind)) :=
  (schema.filter (fun t => t.isObject && !isDefaultType t.name)).bind
    (fun t => t.fields.map (fun fd => ((t.name, fd.name), classifyField tsm serviceMap t.name fd)))

/-- Claim C1: for a non-scalar-returning field, the dispatcher attaches no
delegating resolver when the return type's owner equals the declaring type's
owner; when they differ it attaches exactly one kind — root-delegated
(`makeResolveQuery`) when the declaring type's owner is the sentinel `null`,
entity-reference (`makeReferenceResolver`) when the declaring service's
`typeMap` lists this field on the declaring type, and field-resolver
(`makeFieldResolver`) otherwise. -/
theorem dispatcher_classification (tsm : List (String × Option String))
    (serviceMap : List (String × ServiceRuntime)) (typeName : String)
    (fd : FieldDef) (hscal : fd.returnTypeScalar = false) :
    (ownerOf tsm fd.returnTypeName = ownerOf tsm typeName →
      classifyField tsm serviceMap typeName fd = .ok none)
    ∧ (ownerOf tsm fd.returnTypeName ≠ ownerOf tsm typeName →
        ownerOf tsm typeName = some none →
        classifyField tsm serviceMap typeName fd = .ok (some .queryResolver))
    ∧ (∀ s rt fset, ownerOf tsm fd.returnTypeName ≠ ownerOf tsm typeName →
        ownerOf tsm typeName = some (some s) →
        jsLookup serviceMap s = some rt →
        jsLookup rt.typeMap typeName = some fset →
        classifyField tsm serviceMap typeName fd =
          .ok (some (if fd.name ∈ fset then .referenceResolver else .fieldResolver))) := by
  refine ⟨fun heq => ?_, fun hne hnull => ?_, fun s rt fset hne hsvc hrt hfs => ?_⟩
  · simp [classifyField, hscal, heq]
  · rw [hnull] at hne
    simp [classifyField, hscal, hnull, hne]
  · rw [hsvc] at hne
    simp only [classifyField, hscal, Bool.false_eq_true, if_false, hsvc, hne, if_neg,
      hrt, hfs]
    by_cases hmem : fd.name ∈ fset <;> simp [hmem]

/-- A two-service ownership index for the C1 witness: service `a` owns
`User`, service `b` owns `Product`, `Query` is the forced sentinel. -/
def witnessTsm : List (String × Option String) :=
  [("User", some "a"), ("Product", some "b"), ("Query", none)]

/-- The matching service map: `a` declares `User` with fields `id` and
`product`; `b` declares `Product`. -/
def witnessSm : List (String × ServiceRuntime) :=
  [("a", ⟨"sdlA", [("User", ["id", "product"])], ["User"]⟩),
   ("b", ⟨"sdlB", [("Product", ["name"])], ["Product"]⟩)]

/-- Witness for C1 at concrete inputs: on type `User` (owned by `a`), field
`product : Product` (owned by `b`) is declared by `a` itself, so it gets the
entity-reference resolver; field `query-side` demo: on type `Query` (owner
`null`) the same field gets the root-delegated resolver. -/
theorem dispatcher_classification_witness :
    classifyField witnessTsm witnessSm "User" ⟨"product", "Product", false⟩ =
      .ok (some .referenceResolver)
    ∧ classifyField witnessTsm witnessSm "Query" ⟨"product", "Product", false⟩ =
      .ok (some .queryResolver) := by
  constructor
  · have h := (dispatcher_classification witnessTsm witnessSm "User"
      ⟨"product", "Product", false⟩ rfl).2.2 "a"
      ⟨"sdlA", [("User", ["id", "product"])], ["User"]⟩ ["id", "product"]
      (by decide) (by decide) (by decide) (by decide)
    rw [h]
    simp
  · exact (dispatcher_classification witnessTsm witnessSm "Query"
      ⟨"product", "Product", false⟩ rfl).2.1 (by decide) (by decide)

end FastifyGQL
